import Mathlib

/-!
Verification development for `TwinCAT_To_PDF.py`, a script that converts
TwinCAT XML source files into a structured PDF with a table of contents,
hierarchical numbering and keyword/comment highlighting.

The Python source is shallowly embedded: XML documents become an inductive
tree, `extract_twincat_code` / `extract_cdata` become pure functions,
the rendering phase (`generate_pdf` with its inner `add_to_toc` and
`add_code_files`) becomes functions returning `Option` (a `none` result
models an uncaught Python exception aborting the run), and the regex-based
keyword substitution `re.sub(rf'\b KW \b', ...)` becomes an explicit
left-to-right scanner over character lists with word-boundary checks.
-/

namespace TwinCatPdf

/-! ## Character/string utilities (Python `str` operations on `List Char`) -/

/-- Word character in the sense of the regex `\b` boundary (ASCII `\w`). -/
def isWordChar (c : Char) : Bool := c.isAlphanum || c = '_'

/-- Drop leading whitespace. -/
def trimLeft : List Char → List Char
  | [] => []
  | c :: rest => if c.isWhitespace then trimLeft rest else c :: rest

/-- Python `str.strip()`: drop leading and trailing whitespace. -/
def trimChars (s : List Char) : List Char :=
  ((trimLeft s).reverse |> trimLeft).reverse

/-- Python `str.strip()` on a `String`. -/
def stripStr (s : String) : String := String.mk (trimChars s.data)

/-- Split a character list at every occurrence of `ch`
(Python `str.split(ch)`): always at least one (possibly empty) piece. -/
def splitOnChar (ch : Char) : List Char → List (List Char)
  | [] => [[]]
  | c :: rest =>
    if c = ch then [] :: splitOnChar ch rest
    else
      match splitOnChar ch rest with
      | l :: ls => (c :: l) :: ls
      | [] => [[c]]

/-- Replace every occurrence of the character `c` by `rep`
(Python `str.replace` with a one-character pattern). -/
def replaceChar (c : Char) (rep : List Char) : List Char → List Char
  | [] => []
  | x :: xs => (if x = c then rep else [x]) ++ replaceChar c rep xs

/-- Does `pat` occur as a contiguous sublist (Python `pat in s`)? -/
def containsSub (pat : List Char) : List Char → Bool
  | [] => List.isPrefixOf pat []
  | c :: rest => List.isPrefixOf pat (c :: rest) || containsSub pat rest

/-- Split at the first occurrence of `pat`, removing it
(Python `s.split(pat, 1)` when `pat` occurs): `some (before, after)`. -/
def splitFirst (pat : List Char) : List Char → Option (List Char × List Char)
  | [] => if pat = [] then some ([], []) else none
  | c :: rest =>
    if List.isPrefixOf pat (c :: rest) then
      some ([], (c :: rest).drop pat.length)
    else
      (splitFirst pat rest).map (fun p => (c :: p.1, p.2))

/-- Suffix after the first occurrence of `pat`, with `pat` removed. -/
def afterFirst (pat s : List Char) : Option (List Char) :=
  (splitFirst pat s).map (fun p => p.2)

/-- Python `os.path.basename` restricted to `/`-separated paths. -/
def basename (p : String) : String :=
  String.mk ((splitOnChar '/' p.data).getLastD [])

/-- Python `os.path.dirname` restricted to `/`-separated paths. -/
def dirname (p : String) : String :=
  String.mk (List.intercalate ['/'] ((splitOnChar '/' p.data).dropLast))

/-! ## XML document model (`xml.etree.ElementTree` subset)

The child sequence is a dedicated mutual type `XmlList` (isomorphic to
`List Xml`) so that the document-order traversal below is structurally
recursive and evaluates inside the kernel. -/

mutual
/-- An XML element: tag, attributes, text payload (the text directly
inside the element, `None` in Python when absent) and child elements. -/
inductive Xml where
  | el (tag : String) (attrib : List (String × String)) (text : Option String)
       (children : XmlList)
/-- A sequence of XML elements. -/
inductive XmlList where
  | nil
  | cons (head : Xml) (tail : XmlList)
end

/-- View a child sequence as an ordinary list. -/
def XmlList.toList : XmlList → List Xml
  | .nil => []
  | .cons x xs => x :: xs.toList

/-- Build a child sequence from an ordinary list. -/
def xl : List Xml → XmlList
  | [] => .nil
  | x :: xs => .cons x (xl xs)

def Xml.tag : Xml → String
  | .el t _ _ _ => t

def Xml.attrib : Xml → List (String × String)
  | .el _ a _ _ => a

def Xml.text : Xml → Option String
  | .el _ _ t _ => t

def Xml.children : Xml → List Xml
  | .el _ _ _ c => c.toList

/-- Python `elem.attrib.get(key, dflt)`. -/
def attrGet (x : Xml) (key dflt : String) : String :=
  match x.attrib.lookup key with
  | some v => v
  | none => dflt

mutual
/-- An element followed by all its proper descendants, in document
(pre-)order. -/
def Xml.selfDesc : Xml → List Xml
  | .el t a txt ch => .el t a txt ch :: ch.descs
/-- All descendants of the elements of a sequence (the elements
themselves included), in document order. -/
def XmlList.descs : XmlList → List Xml
  | .nil => []
  | .cons x xs => x.selfDesc ++ xs.descs
end

/-- All proper descendants of an element, in document order; models
ElementTree's `.//` descendant axis relative to this element. -/
def Xml.descendants : Xml → List Xml
  | .el _ _ _ ch => ch.descs

/-- ElementTree `root.findall(".//tag")`: all descendants with this tag,
in document order. -/
def findallDesc (tag : String) (x : Xml) : List Xml :=
  x.descendants.filter (fun e => e.tag = tag)

/-- ElementTree `root.find(".//tag")`: first descendant with this tag. -/
def findDesc (tag : String) (x : Xml) : Option Xml :=
  (findallDesc tag x).head?

/-- ElementTree `x.find(tag)`: first direct child with this tag. -/
def childFind (tag : String) (x : Xml) : Option Xml :=
  (x.children.filter (fun e => e.tag = tag)).head?

/-- ElementTree `x.find("a/b")`: first `b` child of an `a` child,
scanning `a` children in order. -/
def childFind2 (a b : String) (x : Xml) : Option Xml :=
  ((x.children.filter (fun e => e.tag = a)).flatMap
    (fun i => i.children.filter (fun e => e.tag = b))).head?

/-- ElementTree `root.find(".//Implementation/ST")`: first `ST` child of an
`Implementation` descendant, in document order. -/
def findDescPathImplST (x : Xml) : Option Xml :=
  ((findallDesc "Implementation" x).flatMap
    (fun i => i.children.filter (fun e => e.tag = "ST"))).head?

/-! ## Segment extraction (`extract_cdata`, `extract_twincat_code`) -/

/-- Python `extract_cdata(text)`: if the text holds a `CDATA` envelope,
return the stripped envelope content; otherwise the stripped text; `None`
for a falsy (absent or empty) input. -/
def extract_cdata (text : Option String) : Option String :=
  match text with
  | none => none
  | some s =>
    if s = "" then none
    else
      match afterFirst ("<![CDATA[").data s.data with
      | none => some (stripStr s)
      | some after =>
        match splitFirst ("]]>").data after with
        | none => some (stripStr s)
        | some p => some (String.mk (trimChars p.1))

/-- One candidate sub-block of the extractor: the Python pattern
`if e is not None and e.text: c = extract_cdata(e.text); if c: append (label, c)`,
repeated verbatim for each of the nine kinds of segment. -/
def segFrom (label : String) (e : Option Xml) : List (String × String) :=
  match e with
  | none => []
  | some el =>
    match el.text with
    | none => []
    | some t =>
      if t = "" then []
      else
        match extract_cdata (some t) with
        | none => []
        | some c => if c = "" then [] else [(label, c)]

/-- The ordered segment list built by `extract_twincat_code` after a
successful parse: main declaration (`.//Declaration`), main implementation
(`.//Implementation/ST`), then every `.//Method` (declaration then
implementation), then every `.//Property` (declaration, then `Get`
declaration/implementation, then `Set` declaration/implementation). -/
def extract_segments (root : Xml) : List (String × String) :=
  segFrom "Declaration" (findDesc "Declaration" root)
  ++ segFrom "Implementation" (findDescPathImplST root)
  ++ (findallDesc "Method" root).flatMap (fun m =>
      let nm := attrGet m "Name" "Unknown"
      segFrom ("Method " ++ nm ++ " Declaration") (childFind "Declaration" m)
      ++ segFrom ("Method " ++ nm ++ " Implementation") (childFind2 "Implementation" "ST" m))
  ++ (findallDesc "Property" root).flatMap (fun p =>
      let nm := attrGet p "Name" "Unknown"
      segFrom ("Property " ++ nm ++ " Declaration") (childFind "Declaration" p)
      ++ (match childFind "Get" p with
          | none => []
          | some g =>
            segFrom ("Property " ++ nm ++ " Get Declaration") (childFind "Declaration" g)
            ++ segFrom ("Property " ++ nm ++ " Get Implementation") (childFind2 "Implementation" "ST" g))
      ++ (match childFind "Set" p with
          | none => []
          | some st =>
            segFrom ("Property " ++ nm ++ " Set Declaration") (childFind "Declaration" st)
            ++ segFrom ("Property " ++ nm ++ " Set Implementation") (childFind2 "Implementation" "ST" st)))

/-- Title derivation of `extract_twincat_code` (tag with namespace stripped,
then the kind-dependent format strings). -/
def mkTitle (file_path : String) (root : Xml) : String :=
  let obj_type := String.mk ((splitOnChar '}' root.tag.data).getLastD [])
  if obj_type = "POU" then
    let obj_name := attrGet root "Name" "Unknown"
    let pou_type := attrGet root "SpecialFunc" ""
    obj_type ++ ": " ++ obj_name ++ " " ++ pou_type
  else if obj_type = "Itf" then
    "Interface: " ++ attrGet root "Name" "Unknown"
  else if obj_type = "DUT" then
    "DUT: " ++ attrGet root "Name" "Unknown"
  else if obj_type = "GVL" then
    "GVL: " ++ attrGet root "Name" "Unknown"
  else
    basename file_path

/-- Python `extract_twincat_code(file_path)`. The XML parse itself is
modelled by the `parsed` argument: `none` is a parse exception, on which
the Python function prints the error and returns `(None, None)`. -/
def extract_twincat_code (file_path : String) (parsed : Option Xml) :
    Option (String × List (String × String)) :=
  match parsed with
  | none => none
  | some root => some (mkTitle file_path root, extract_segments root)

/-! ## Spec-side canonical candidate list for claim C3 -/

/-- Payload of an optional sub-block as the spec describes it: the block's
embedded text, envelope stripped and trimmed, kept only when non-empty. -/
def payloadOf (e : Option Xml) : Option String :=
  e.bind (fun el => (extract_cdata el.text).bind
    (fun c => if c = "" then none else some c))

/-- The spec's canonical candidate sequence for a unit: main declaration,
main implementation, per-method (declaration, implementation) in document
order, per-property (declaration, getter declaration, getter
implementation, setter declaration, setter implementation) in document
order, each paired with its optional trimmed payload. -/
def unitCandidates (root : Xml) : List (String × Option String) :=
  ("Declaration", payloadOf (findDesc "Declaration" root))
  :: ("Implementation", payloadOf (findDescPathImplST root))
  :: (findallDesc "Method" root).flatMap (fun m =>
      let nm := attrGet m "Name" "Unknown"
      [("Method " ++ nm ++ " Declaration", payloadOf (childFind "Declaration" m)),
       ("Method " ++ nm ++ " Implementation", payloadOf (childFind2 "Implementation" "ST" m))])
  ++ (findallDesc "Property" root).flatMap (fun p =>
      let nm := attrGet p "Name" "Unknown"
      [("Property " ++ nm ++ " Declaration", payloadOf (childFind "Declaration" p)),
       ("Property " ++ nm ++ " Get Declaration",
          payloadOf ((childFind "Get" p).bind (childFind "Declaration"))),
       ("Property " ++ nm ++ " Get Implementation",
          payloadOf ((childFind "Get" p).bind (childFind2 "Implementation" "ST"))),
       ("Property " ++ nm ++ " Set Declaration",
          payloadOf ((childFind "Set" p).bind (childFind "Declaration"))),
       ("Property " ++ nm ++ " Set Implementation",
          payloadOf ((childFind "Set" p).bind (childFind2 "Implementation" "ST")))])

/-- A candidate becomes a segment exactly when its payload is present. -/
def candSeg : String × Option String → Option (String × String)
  | (l, some c) => some (l, c)
  | (_, none) => none

/-- Keep exactly the candidates with a present (non-empty) payload, in
canonical order. -/
def canonicalSegments (root : Xml) : List (String × String) :=
  (unitCandidates root).filterMap candSeg

/-! ## Keyword highlighting (`re.sub(rf'\b KEYWORD \b', ...)`) -/

/-- The keyword list of `add_code_files`, verbatim (including the
duplicated `OF` entry). -/
def keywords : List String :=
  ["__UXINT", "__XINT", "__XWORD", "BIT", "BOOL", "BYTE", "DATE", "DATE_AND_TIME",
   "DINT", "DT", "DWORD", "INT", "LDATE", "LDATE_AND_TIME", "LDT", "LINT",
   "LREAL", "LTIME", "LTOD", "LWORD", "REAL", "SINT", "STRING", "TIME",
   "TOD", "TIME_OF_DAY", "UDINT", "UINT", "ULINT", "USINT", "WORD", "WSTRING",
   "FUNCTION_BLOCK", "PROGRAM", "IMPLEMENTS", "INTERFACE", "VAR", "END_VAR", "EXTENDS",
   "PROPERTY", "TYPE", "END_TYPE", "STRUCT", "END_STRUCT", "POINTER", "TO", "DO",
   "FOR", "END_FOR", "END_IF", "IF", "AND", "AND_THEN", "OR_ELSE", "ELSE", "WHILE",
   "REPEAT", "UNTIL", "CASE", "OF", "ADR", "XOR", "VAR_INPUT", "VAR_OUTPUT", "PERSISTENT",
   "RETAIN", "AT", "ARRAY", "OF", "METHOD", "THIS^", "NOT", "THEN", "ELSIF",
   "REFERENCE", "REF=", "PUBLIC", "PRIVATE", "CONSTANT", "VAR_GLOBAL"]

/-- Word-character status of an optional character; a position beyond the
string counts as non-word, matching the regex boundary convention. -/
def wordOpt : Option Char → Bool
  | none => false
  | some c => isWordChar c

/-- Does the pattern `\b (k :: ks) \b` match at the head of `s`, where
`prev` is the character just before this position (if any)? The leading
and trailing `\b` each require a word/non-word transition. -/
def matchHere (k : Char) (ks : List Char) (prev : Option Char) (s : List Char) : Bool :=
  List.isPrefixOf (k :: ks) s
  && (wordOpt prev != isWordChar k)
  && (isWordChar (ks.getLastD k) != wordOpt ((s.drop (ks.length + 1)).head?))

/-- Left-to-right non-overlapping scan of `re.sub` for the literal word
`k :: ks` with replacement `rep`; matches are found on the original text
only, and scanning resumes after each match. The scan is driven by a fuel
counter so that it is structurally recursive; every step consumes at least
one character of the text, so a fuel of `s.length` never runs out and the
fuel-exhausted branch is unreachable. -/
def subAux (k : Char) (ks rep : List Char) : Nat → Option Char → List Char → List Char
  | _, _, [] => []
  | 0, _, s => s
  | fuel + 1, prev, c :: rest =>
    if matchHere k ks prev (c :: rest) then
      rep ++ subAux k ks rep fuel (some (ks.getLastD k)) ((c :: rest).drop (ks.length + 1))
    else
      c :: subAux k ks rep fuel (some c) rest

/-- Python `re.sub(rf'\b kw \b', rep, s)` for a literal word `kw`. -/
def pySubWord (kw rep s : List Char) : List Char :=
  match kw with
  | [] => s
  | k :: ks => subAux k ks rep s.length none s

/-- The substitution target used by the highlighter. -/
def wrapBlue (kw : List Char) : List Char :=
  ("<font color=\"blue\">").data ++ kw ++ ("</font>").data

/-- One pass of the keyword loop. The pattern built for the keyword
`THIS^` is `\bTHIS^\b`, in which `^` is a start-of-string anchor that can
never hold after `THIS`, so that pass never matches anything. -/
def applyKeyword (kw : String) (s : List Char) : List Char :=
  if kw = "THIS^" then s
  else pySubWord kw.data (wrapBlue kw.data) s

/-- The full keyword loop: each keyword pass rewrites the output of the
previous one, in list order. -/
def highlight (s : List Char) : List Char :=
  keywords.foldl (fun acc kw => applyKeyword kw acc) s

/-! ## Line rendering inside `add_code_files` -/

/-- One output element of the report (reportlab flowables). -/
inductive El where
  | para (text : String) (style : String)
  | spacer (size : String)
  | pageBreak
  | table (rows : List String)
deriving DecidableEq

/-- Markup escaping of a code line: `&`, then `<`, then `>`. -/
def escapeLine (s : List Char) : List Char :=
  replaceChar '>' ("&gt;").data
    (replaceChar '<' ("&lt;").data
      (replaceChar '&' ("&amp;").data s))

/-- Rendering of one physical code line. The escaped copy `safe_line` is
used for the blank test and for the no-comment branch, but the comment
branch splits and highlights the ORIGINAL `line`, exactly as the source
does. -/
def renderLine (line : List Char) : List El :=
  let safe_line := escapeLine line
  if trimChars safe_line ≠ [] then
    if containsSub ("//").data line then
      match splitFirst ("//").data line with
      | some p =>
        let code_part := highlight p.1
        let full_line := code_part ++ ("<font color=\"green\">//").data
                          ++ p.2 ++ ("</font>").data
        [El.para (String.mk (trimChars full_line)) "CodeStyle"]
      | none => []
    else
      [El.para (String.mk (trimChars (highlight safe_line))) "CodeStyle"]
  else
    [El.spacer "10"]

/-- Rendering of one code segment: its title as a subheading, each
physical line of the code in order, then the fixed trailing gap. -/
def renderSegment (seg : String × String) : List El :=
  El.para seg.1 "Subheading"
    :: (splitOnChar '\n' seg.2.data).flatMap renderLine ++ [El.spacer "0.5cm"]

/-! ## Folder groups and the rendering phase (`generate_pdf`) -/

/-- One slot of a folder's file list. After the main loop, a slot is
either the `(title, code_segments)` pair written back on success or the
untouched raw `Path` left by a failed or empty extraction. -/
inductive Entry where
  | raw (path : String)
  | parsed (title : String) (segs : List (String × String))
deriving DecidableEq

def Entry.isParsed : Entry → Bool
  | .parsed _ _ => true
  | .raw _ => false

def Entry.title : Entry → String
  | .parsed t _ => t
  | .raw p => p

def Entry.segs : Entry → List (String × String)
  | .parsed _ s => s
  | .raw _ => []

/-- `code_files_by_folder`: relative folder path to ordered file slots.
The values are always lists (never nested mappings), so the
`isinstance(subfiles, dict)` recursion branches of `add_to_toc` and
`add_code_files` are statically dead and are omitted here. -/
def FolderGroup : Type := List (String × List Entry)

/-- Every slot of every folder has been replaced by an extraction result. -/
def allParsed (g : FolderGroup) : Bool :=
  g.all (fun p => p.2.all Entry.isParsed)

/-- The folder label expression `f"{prefix}{idx + 1}"` shared verbatim by
`add_to_toc` and `add_code_files` (`idx` is 0-based). -/
def folderLabel (pre : String) (idx : Nat) : String := pre ++ toString (idx + 1)

/-- The file label expression `f"{folder_label}.{file_index}"` shared
verbatim by `add_to_toc` and `add_code_files` (`j` is 1-based). -/
def fileLabel (lab : String) (j : Nat) : String := lab ++ "." ++ toString j

/-- The file rows of one folder in `add_to_toc`. Unpacking a raw `Path`
slot as `title, _` raises in Python, modelled by `none`. -/
def tocFiles : List Entry → String → Nat → Option (List String)
  | [], _, _ => some []
  | .raw _ :: _, _, _ => none
  | .parsed t _ :: es, lab, j =>
    (tocFiles es lab (j + 1)).map
      (fun r => ("    " ++ fileLabel lab j ++ " " ++ t) :: r)

/-- The folder loop of `add_to_toc`: one row per folder, then its file
rows (`idx` is 0-based). -/
def tocFolders : FolderGroup → String → Nat → Option (List String)
  | [], _, _ => some []
  | (name, files) :: rest, pre, idx =>
    match tocFiles files (folderLabel pre idx) 1, tocFolders rest pre (idx + 1) with
    | some fr, some rr =>
      some ((folderLabel pre idx ++ " " ++ name) :: fr ++ rr)
    | _, _ => none

/-- Python `add_to_toc(data, prefix)` (row texts of `toc_data`). -/
def add_to_toc (g : FolderGroup) (pre : String) : Option (List String) :=
  tocFolders g pre 0

/-- The file loop of `add_code_files`: per file a subheading and the
rendered segments; a raw `Path` slot raises, modelled by `none`. -/
def bodyFiles : List Entry → String → Nat → Option (List El)
  | [], _, _ => some []
  | .raw _ :: _, _, _ => none
  | .parsed t segs :: es, lab, j =>
    (bodyFiles es lab (j + 1)).map
      (fun r => El.para (fileLabel lab j ++ " " ++ t) "Subheading"
                  :: segs.flatMap renderSegment ++ r)

/-- The folder loop of `add_code_files`: a page break before every folder
except the first (`FirstCycleDone`), a heading, then the files. -/
def bodyFolders : FolderGroup → String → Nat → Option (List El)
  | [], _, _ => some []
  | (name, files) :: rest, pre, idx =>
    match bodyFiles files (folderLabel pre idx) 1, bodyFolders rest pre (idx + 1) with
    | some fr, some rr =>
      some ((if idx = 0 then [] else [El.pageBreak])
            ++ El.para (folderLabel pre idx ++ " " ++ name) "Heading" :: fr ++ rr)
    | _, _ => none

/-- Python `add_code_files(data, prefix)`. -/
def add_code_files (g : FolderGroup) (pre : String) : Option (List El) :=
  bodyFolders g pre 0

/-- The title-page elements of `generate_pdf`. -/
def titleEls (g : FolderGroup) (output_pdf : String) : List El :=
  [El.spacer "5cm",
   El.para "TwinCAT PLC PDF Auto-Gen" "Title",
   El.spacer "1cm",
   El.para ("Generated on: " ++ basename (dirname output_pdf)) "Normal",
   El.para ("Total files: " ++ toString g.length) "Normal",
   El.pageBreak]

/-- Python `generate_pdf(code_files_by_folder, output_pdf)`: the flowable
list handed to `doc.build`, or `none` when an exception aborts the run.
The `rows.isEmpty` failure models reportlab's `Table` constructor, which
under the library's default configuration (`emptyTableAction = 'error'`)
raises `ValueError` for data with no rows. -/
def generate_pdf (g : FolderGroup) (output_pdf : String) : Option (List El) :=
  match add_to_toc g "" with
  | none => none
  | some rows =>
    if rows.isEmpty then none
    else
      match add_code_files g "" with
      | none => none
      | some body =>
        some (titleEls g output_pdf
              ++ [El.para "Table of Contents" "Heading", El.spacer "0.5cm",
                  El.table rows, El.pageBreak]
              ++ body)

/-- One step of the extraction loop in `main`: the slot is overwritten
with `(title, code_segments)` only when both are truthy; otherwise
(extraction failure, empty title, or empty segment list) the raw path is
left in place. -/
def processFile (file_path : String) (res : Option (String × List (String × String))) :
    Entry :=
  match res with
  | some (t, segs) => if t ≠ "" ∧ segs ≠ [] then .parsed t segs else .raw file_path
  | none => .raw file_path

/-! ## Spec-side descriptions of the numbering pass (claims C2 and C5)

These describe, in the words of the specification, the rows and elements
the two rendering functions must produce; the claims are settled by
proving the faithful translations above refine them. Both use the shared
`folderLabel` / `fileLabel` numbering functions, which is the lock-step
invariant of C2. -/

/-- Specified table-of-contents rows for one folder's files: the j-th file
(1-indexed) is labeled with `fileLabel` of the folder's label. -/
def tocSpecFiles : List Entry → String → Nat → List String
  | [], _, _ => []
  | e :: es, lab, j =>
    ("    " ++ fileLabel lab j ++ " " ++ e.title) :: tocSpecFiles es lab (j + 1)

/-- Specified table-of-contents rows: the k-th folder (`idx` 0-based) is
labeled `folderLabel pre idx`, followed by its file rows. -/
def tocSpecFolders : FolderGroup → String → Nat → List String
  | [], _, _ => []
  | (name, files) :: rest, pre, idx =>
    (folderLabel pre idx ++ " " ++ name)
      :: tocSpecFiles files (folderLabel pre idx) 1
      ++ tocSpecFolders rest pre (idx + 1)

/-- Specified body elements for one folder's files, using the same
`fileLabel` numbering as the table of contents. -/
def bodySpecFiles : List Entry → String → Nat → List El
  | [], _, _ => []
  | e :: es, lab, j =>
    El.para (fileLabel lab j ++ " " ++ e.title) "Subheading"
      :: e.segs.flatMap renderSegment ++ bodySpecFiles es lab (j + 1)

/-- Specified body elements: the k-th folder gets a page break (except the
first), a heading with the same `folderLabel` as the table of contents,
then its files. -/
def bodySpecFolders : FolderGroup → String → Nat → List El
  | [], _, _ => []
  | (name, files) :: rest, pre, idx =>
    (if idx = 0 then [] else [El.pageBreak])
      ++ El.para (folderLabel pre idx ++ " " ++ name) "Heading"
      :: bodySpecFiles files (folderLabel pre idx) 1
      ++ bodySpecFolders rest pre (idx + 1)

/-- File elements of one folder under claim C5's `P.k.j` formula: the
j-th file (1-indexed) is labeled with the folder label, a dot and `j`,
followed by the file's derived title. -/
def numberedFiles : List Entry → String → Nat → List El
  | [], _, _ => []
  | e :: es, klab, j =>
    El.para (klab ++ "." ++ toString j ++ " " ++ e.title) "Subheading"
      :: e.segs.flatMap renderSegment ++ numberedFiles es klab (j + 1)

/-- Claim C5's top-level numbering formula, stated with explicit label
strings: the k-th folder (1-indexed) is labeled `toString k`, its j-th
file `toString k ++ "." ++ toString j`, with the file's derived title as
label text. -/
def numberedBody : FolderGroup → Nat → List El
  | [], _ => []
  | (name, files) :: rest, k =>
    (if k = 1 then [] else [El.pageBreak])
      ++ El.para (toString k ++ " " ++ name) "Heading"
      :: numberedFiles files (toString k) 1
      ++ numberedBody rest (k + 1)

/-! ## Boundary-occurrence predicate and concrete example data -/

/-- The word `kw` occurs at position `i` of `s` with regex word
boundaries on both sides: `kw` is a prefix of the suffix at `i`, the
character before position `i` (if any) makes a word/non-word transition
with the first character of `kw`, and symmetrically after the match. This
positional description is independent of the scanning implementation. -/
def occursAtB (kw : List Char) (s : List Char) (i : Nat) : Bool :=
  match kw with
  | [] => false
  | k :: ks => matchHere k ks (if i = 0 then none else s.get? (i - 1)) (s.drop i)

/-- Example group for claim C6: one folder holding two parsed files. -/
def c6exGroup : FolderGroup := [("F", [Entry.parsed "A" [], Entry.parsed "B" []])]

/-- Example unit for claim C9: a parseable file with no extractable
segments at all. -/
def c9exRoot : Xml := Xml.el "POU" [("Name","U")] none XmlList.nil

/-- Example unit for claim C10's counterexample: no top-level
`Declaration`, but a `Property` whose declaration precedes the `Method`
in document order. -/
def c10exRoot : Xml :=
  Xml.el "POU" [("Name","U")] none (xl
    [Xml.el "Property" [("Name","P")] none
       (xl [Xml.el "Declaration" [] (some "A") XmlList.nil]),
     Xml.el "Method" [("Name","M")] none
       (xl [Xml.el "Declaration" [] (some "B") XmlList.nil])])

/-- Example unit for claim C10's amended statement: the only
`Declaration` descendant belongs to the method. -/
def c10wRoot : Xml :=
  Xml.el "POU" [("Name","U")] none (xl
    [Xml.el "Method" [("Name","M")] none
       (xl [Xml.el "Declaration" [] (some "B") XmlList.nil])])

/-- The method element of `c10wRoot`. -/
def c10wMethod : Xml :=
  Xml.el "Method" [("Name","M")] none
    (xl [Xml.el "Declaration" [] (some "B") XmlList.nil])

/-- The declaration element of `c10wMethod`. -/
def c10wDecl : Xml := Xml.el "Declaration" [] (some "B") XmlList.nil

/-! ## Helper lemmas -/

set_option maxRecDepth 100000

theorem segFrom_eq_payload (l : String) (e : Option Xml) :
    segFrom l e = (payloadOf e).elim [] (fun c => [(l, c)]) := by
  cases e with
  | none => rfl
  | some x =>
    cases x with
    | el t a txt ch =>
      cases txt with
      | none => rfl
      | some s =>
        by_cases hs : s = ""
        · subst hs
          rfl
        · simp only [segFrom, payloadOf, Xml.text, Option.bind, if_neg hs]
          cases hc : extract_cdata (some s) with
          | none => simp
          | some c =>
            by_cases hcc : c = "" <;> simp [hcc]

theorem filterMap_candSeg_cons (l : String) (p : Option String)
    (rest : List (String × Option String)) :
    List.filterMap candSeg ((l, p) :: rest)
      = (p.elim [] (fun c => [(l, c)])) ++ List.filterMap candSeg rest := by
  cases p <;> simp [candSeg, List.filterMap_cons]

theorem flatMap_filterMap {α β γ : Type} (f : β → Option γ) (g : α → List β)
    (l : List α) :
    List.filterMap f (l.flatMap g) = l.flatMap (fun a => List.filterMap f (g a)) := by
  induction l with
  | nil => simp
  | cons a l ih => simp [List.flatMap_cons, List.filterMap_append, ih]

theorem flatMap_congrFn {α β : Type} (l : List α) (f g : α → List β)
    (h : ∀ a, f a = g a) :
    l.flatMap f = l.flatMap g := by
  induction l with
  | nil => rfl
  | cons a l ih => simp only [List.flatMap_cons, h a, ih]

/-! ## Claim theorems -/

/-- C3: for every parsed source unit, the segment list returned by the
extractor is exactly the canonically ordered candidate sequence (main
declaration, main implementation, per-method declaration/implementation
in document order, per-property declaration and getter/setter
declaration/implementation in document order) restricted to the
candidates whose trimmed payload is non-empty. -/
theorem c3_segments_canonical_order (root : Xml) :
    extract_segments root = canonicalSegments root := by
  simp only [extract_segments, canonicalSegments, unitCandidates,
             filterMap_candSeg_cons, List.filterMap_append, flatMap_filterMap,
             segFrom_eq_payload, List.append_assoc]
  congr 1
  congr 1
  congr 1
  · exact flatMap_congrFn _ _ _ (fun m => by
      simp [filterMap_candSeg_cons])
  · exact flatMap_congrFn _ _ _ (fun p => by
      cases hg : childFind "Get" p <;> cases hs : childFind "Set" p <;>
        simp [segFrom_eq_payload, filterMap_candSeg_cons, hg, hs, payloadOf])

/-- C1 is refuted by the code: when one file's extraction fails, the main
loop leaves its raw path in the folder group, and the rendering phase
aborts the WHOLE run (tuple-unpacking the path raises), so the other,
successfully extracted file of the same folder is not rendered either and
no document is produced. -/
theorem c1_failed_file_aborts_whole_run :
    generate_pdf
      [("FolderA",
        [processFile "bad.TcPOU" (extract_twincat_code "bad.TcPOU" none),
         Entry.parsed "DUT: Good" [("Declaration", "x")]])] "out.pdf" = none := by
  decide

/-- C4 is refuted by the code: a comment-bearing line is split on the
ORIGINAL line, not on the escaped `safe_line`, so the escaping of `<` is
lost in the comment branch, while the same character on a comment-free
line survives as `&lt;`. -/
theorem c4_comment_branch_drops_escaping :
    renderLine ("x < 1 // c").data
        = [El.para "x < 1 <font color=\"green\">// c</font>" "CodeStyle"]
      ∧ renderLine ("x < 1").data = [El.para "x &lt; 1" "CodeStyle"] := by
  constructor
  · decide
  · decide

/-- C8 is refuted by the code: for an empty input directory the folder
group is empty, `toc_data` has no rows, and the `Table` constructor of the
rendering backend rejects rowless data (its default `emptyTableAction` is
`error`), so the run aborts and no document is written. -/
theorem c8_empty_input_produces_no_document :
    generate_pdf ([] : FolderGroup) "output.pdf" = none := by
  decide

theorem empty_append_str (s : String) : "" ++ s = s := by
  cases s
  rfl

theorem tocFiles_spec : ∀ (es : List Entry) (lab : String) (j : Nat),
    es.all Entry.isParsed = true → tocFiles es lab j = some (tocSpecFiles es lab j)
  | [], _, _, _ => rfl
  | .raw p :: es, lab, j, h => by simp [Entry.isParsed] at h
  | .parsed t segs :: es, lab, j, h => by
    simp only [List.all_cons, Bool.and_eq_true] at h
    simp [tocFiles, tocSpecFiles, tocFiles_spec es lab (j + 1) h.2, Entry.title]

theorem tocFolders_spec : ∀ (g : FolderGroup) (pre : String) (idx : Nat),
    allParsed g = true → tocFolders g pre idx = some (tocSpecFolders g pre idx)
  | [], _, _, _ => rfl
  | (name, files) :: rest, pre, idx, h => by
    have h' : (files.all Entry.isParsed) = true ∧ allParsed rest = true := by
      simpa [allParsed, List.all_cons, Bool.and_eq_true] using h
    simp [tocFolders, tocSpecFolders, tocFiles_spec files _ 1 h'.1,
          tocFolders_spec rest pre (idx + 1) h'.2]

theorem bodyFiles_spec : ∀ (es : List Entry) (lab : String) (j : Nat),
    es.all Entry.isParsed = true → bodyFiles es lab j = some (bodySpecFiles es lab j)
  | [], _, _, _ => rfl
  | .raw p :: es, lab, j, h => by simp [Entry.isParsed] at h
  | .parsed t segs :: es, lab, j, h => by
    simp only [List.all_cons, Bool.and_eq_true] at h
    simp [bodyFiles, bodySpecFiles, bodyFiles_spec es lab (j + 1) h.2,
          Entry.title, Entry.segs]

theorem bodyFolders_spec : ∀ (g : FolderGroup) (pre : String) (idx : Nat),
    allParsed g = true → bodyFolders g pre idx = some (bodySpecFolders g pre idx)
  | [], _, _, _ => rfl
  | (name, files) :: rest, pre, idx, h => by
    have h' : (files.all Entry.isParsed) = true ∧ allParsed rest = true := by
      simpa [allParsed, List.all_cons, Bool.and_eq_true] using h
    simp [bodyFolders, bodySpecFolders, bodyFiles_spec files _ 1 h'.1,
          bodyFolders_spec rest pre (idx + 1) h'.2]

/-- C2: on any fully parsed folder group, `add_to_toc` and
`add_code_files` produce exactly the rows and elements described by the
shared numbering functions `folderLabel` / `fileLabel` applied at the same
positions, so the numbering label emitted into the table of contents and
the one emitted as the corresponding body heading are identical strings
for every folder and every file. -/
theorem c2_toc_body_numbering_lockstep (g : FolderGroup) (pre : String)
    (h : allParsed g = true) :
    add_to_toc g pre = some (tocSpecFolders g pre 0)
      ∧ add_code_files g pre = some (bodySpecFolders g pre 0) :=
  ⟨tocFolders_spec g pre 0 h, bodyFolders_spec g pre 0 h⟩

/-- Witness for C2 on a concrete two-folder group. -/
theorem c2_toc_body_numbering_lockstep_witness :
    add_to_toc [("FolderA", [Entry.parsed "POU: M " [("Declaration", "x")]]),
                ("FolderB", [Entry.parsed "DUT: P" []])] ""
        = some (tocSpecFolders
            [("FolderA", [Entry.parsed "POU: M " [("Declaration", "x")]]),
             ("FolderB", [Entry.parsed "DUT: P" []])] "" 0)
      ∧ add_code_files [("FolderA", [Entry.parsed "POU: M " [("Declaration", "x")]]),
                        ("FolderB", [Entry.parsed "DUT: P" []])] ""
        = some (bodySpecFolders
            [("FolderA", [Entry.parsed "POU: M " [("Declaration", "x")]]),
             ("FolderB", [Entry.parsed "DUT: P" []])] "" 0) :=
  c2_toc_body_numbering_lockstep
    [("FolderA", [Entry.parsed "POU: M " [("Declaration", "x")]]),
     ("FolderB", [Entry.parsed "DUT: P" []])] "" (by decide)

theorem bodySpecFiles_numbered : ∀ (es : List Entry) (lab : String) (j : Nat),
    bodySpecFiles es lab j = numberedFiles es lab j
  | [], _, _ => rfl
  | e :: es, lab, j => by
    simp [bodySpecFiles, numberedFiles, fileLabel, bodySpecFiles_numbered es lab (j + 1)]

theorem bodySpecFolders_numbered : ∀ (g : FolderGroup) (idx : Nat),
    bodySpecFolders g "" idx = numberedBody g (idx + 1)
  | [], _ => rfl
  | (name, files) :: rest, idx => by
    have hl : folderLabel "" idx = toString (idx + 1) := empty_append_str _
    have hk : (idx + 1 = 1) ↔ (idx = 0) := by omega
    simp [bodySpecFolders, numberedBody, hl, hk, bodySpecFiles_numbered,
          bodySpecFolders_numbered rest (idx + 1)]

/-- C5: on any fully parsed folder group, the rendering pass invoked at
the top level labels the k-th folder (1-indexed, stored order) with the
string `toString k`, and the j-th file within it with
`toString k ++ "." ++ toString j` followed by the file's derived title.
The recursive subfolder branch of the source passes an accumulated prefix
to the same function, but it is dead code for the list-valued groups the
collector builds, so the prefix is always empty. -/
theorem c5_numbering_formula_top_level (g : FolderGroup)
    (h : allParsed g = true) :
    add_code_files g "" = some (numberedBody g 1) :=
  (bodyFolders_spec g "" 0 h).trans (congrArg some (bodySpecFolders_numbered g 0))

/-- Witness for C5 on a concrete folder with two files. -/
theorem c5_numbering_formula_witness :
    add_code_files [("POUs", [Entry.parsed "POU: MAIN " [], Entry.parsed "DUT: Point3D" []])] ""
      = some (numberedBody
          [("POUs", [Entry.parsed "POU: MAIN " [], Entry.parsed "DUT: Point3D" []])] 1) :=
  c5_numbering_formula_top_level
    [("POUs", [Entry.parsed "POU: MAIN " [], Entry.parsed "DUT: Point3D" []])] (by decide)

/-- C6 is refuted by the code at a concrete input: the title page prints
`len(code_files_by_folder)`, the number of FOLDER keys, not the number of
files; for one folder with two parsed files, the generated elements say
`Total files: 1` and not `Total files: 2`. -/
theorem c6_total_files_counts_folders :
    allParsed c6exGroup = true
      ∧ (c6exGroup.flatMap (fun p => p.2)).length = 2
      ∧ El.para "Total files: 1" "Normal" ∈ (generate_pdf c6exGroup "o.pdf").getD []
      ∧ El.para "Total files: 2" "Normal" ∉ (generate_pdf c6exGroup "o.pdf").getD [] := by
  refine ⟨by decide, by decide, by decide, by decide⟩

/-- C6 as amended: whenever the run produces a document, its title page
contains the count line, but the count is the number of folder keys of
the group rather than the number of input files represented. -/
theorem c6_title_page_count_is_folder_count (g : FolderGroup) (out : String)
    (es : List El) (h : generate_pdf g out = some es) :
    El.para ("Total files: " ++ toString g.length) "Normal" ∈ es := by
  unfold generate_pdf at h
  split at h
  · simp at h
  · split at h
    · simp at h
    · split at h
      · simp at h
      · have hes := Option.some_injective _ h
        rw [← hes]
        simp [titleEls]

/-- Witness for the amended C6 on the concrete one-folder group. -/
theorem c6_title_page_count_witness :
    El.para ("Total files: " ++ toString c6exGroup.length) "Normal"
      ∈ (generate_pdf c6exGroup "o.pdf").getD [] :=
  c6_title_page_count_is_folder_count c6exGroup "o.pdf" _ (by decide)

theorem subAux_no_match : ∀ (s : List Char) (k : Char) (ks rep : List Char)
    (fuel : Nat) (prev : Option Char),
    s.length ≤ fuel →
    (∀ i, matchHere k ks (if i = 0 then prev else s.get? (i - 1)) (s.drop i) = false) →
    subAux k ks rep fuel prev s = s
  | [], _, _, _, fuel, prev, _, _ => by cases fuel <;> rfl
  | c :: rest, k, ks, rep, fuel, prev, hf, h => by
    cases fuel with
    | zero => simp at hf
    | succ f =>
      have h0 : matchHere k ks prev (c :: rest) = false := by simpa using h 0
      rw [subAux, if_neg (by simp [h0])]
      congr 1
      apply subAux_no_match rest k ks rep f (some c)
      · simpa using Nat.le_of_succ_le_succ (by simpa using hf)
      · intro i
        cases i with
        | zero => simpa using h 1
        | succ j => simpa using h (j + 2)

/-- C7: for every line and every reserved word of the fixed keyword list,
the substitution pass touches only word-boundary occurrences: if the word
has no boundary occurrence anywhere in the line (for instance when it only
appears as a strict substring of a longer identifier such as
`INTERFACE2`), the pass leaves the line unchanged, wrapping nothing. -/
theorem c7_keyword_whole_word_only (kw : String) (s : List Char)
    (hkw : kw ∈ keywords)
    (h : ∀ i < s.length + 1, occursAtB kw.data s i = false) :
    applyKeyword kw s = s := by
  unfold applyKeyword
  by_cases ht : kw = "THIS^"
  · simp [ht]
  · rw [if_neg ht]
    unfold pySubWord
    cases hd : kw.data with
    | nil => rfl
    | cons k ks =>
      apply subAux_no_match s k ks _ s.length none le_rfl
      intro i
      by_cases hi : i < s.length + 1
      · have hh := h i hi
        rw [hd] at hh
        simpa [occursAtB] using hh
      · have hdrop : s.drop i = [] := List.drop_eq_nil_of_le (by omega)
        simp [matchHere, hdrop, List.isPrefixOf]

/-- Witness for C7: in a line containing the identifier `INTERFACE2`, the
keyword `INTERFACE` is never wrapped in a color marker. -/
theorem c7_keyword_whole_word_witness :
    applyKeyword "INTERFACE" ("IF INTERFACE2 THEN").data = ("IF INTERFACE2 THEN").data :=
  c7_keyword_whole_word_only "INTERFACE" ("IF INTERFACE2 THEN").data
    (by decide) (by decide)

/-- C9: a file that parses but yields an empty segment list is never
written back by the main loop, so its raw path stays in the folder group,
and the rendering phase then fails for the ENTIRE run (whatever the other
folders hold), producing no document. -/
theorem c9_empty_segments_leave_raw_path (path : String) (root : Xml)
    (name out : String) (rest : FolderGroup)
    (h : extract_segments root = []) :
    processFile path (extract_twincat_code path (some root)) = Entry.raw path
      ∧ generate_pdf ((name, [processFile path (extract_twincat_code path (some root))]) :: rest)
          out = none := by
  have hp : processFile path (extract_twincat_code path (some root)) = Entry.raw path := by
    simp [processFile, extract_twincat_code, h]
  refine ⟨hp, ?_⟩
  rw [hp]
  simp [generate_pdf, add_to_toc, tocFolders, tocFiles]

/-- Witness for C9 on a concrete parseable unit with no segments. -/
theorem c9_empty_segments_witness :
    processFile "f.TcPOU" (extract_twincat_code "f.TcPOU" (some c9exRoot)) = Entry.raw "f.TcPOU"
      ∧ generate_pdf [("F", [processFile "f.TcPOU" (extract_twincat_code "f.TcPOU" (some c9exRoot))])]
          "o.pdf" = none :=
  c9_empty_segments_leave_raw_path "f.TcPOU" c9exRoot "F" "o.pdf" [] (by decide)

/-- C10 is refuted as stated: in a unit with no top-level `Declaration`
where a `Property` declaration precedes the method in document order, the
method's declaration text `B` is NOT emitted as the unit's main
`Declaration` segment (the property's text `A` is), even though the unit
contains a method with a declaration. -/
theorem c10_method_not_main_declaration_counterexample :
    childFind "Declaration" c10exRoot = none
      ∧ (findallDesc "Method" c10exRoot).map (fun m => childFind "Declaration" m)
          = [some (Xml.el "Declaration" [] (some "B") XmlList.nil)]
      ∧ payloadOf (some (Xml.el "Declaration" [] (some "B") XmlList.nil)) = some "B"
      ∧ ("Declaration", "B") ∉ extract_segments c10exRoot := by
  refine ⟨rfl, rfl, rfl, by decide⟩

/-- C10 as amended: the main-declaration lookup searches all descendants,
so whenever the FIRST `Declaration` descendant in document order is the
declaration child of some method, its text is emitted both as the unit's
main `Declaration` segment and again as that method's own declaration
segment. -/
theorem c10_first_declaration_emitted_twice (root m d : Xml) (t : String)
    (hfind : findDesc "Declaration" root = some d)
    (hm : m ∈ findallDesc "Method" root)
    (hchild : childFind "Declaration" m = some d)
    (hpay : payloadOf (some d) = some t) :
    ("Declaration", t) ∈ extract_segments root
      ∧ ("Method " ++ attrGet m "Name" "Unknown" ++ " Declaration", t) ∈ extract_segments root := by
  unfold extract_segments
  constructor
  · apply List.mem_append_left
    apply List.mem_append_left
    apply List.mem_append_left
    rw [hfind, segFrom_eq_payload, hpay]
    simp
  · apply List.mem_append_left
    apply List.mem_append_right
    refine List.mem_flatMap.mpr ⟨m, hm, ?_⟩
    apply List.mem_append_left
    rw [hchild, segFrom_eq_payload, hpay]
    simp

/-- Witness for the amended C10 on a concrete unit whose only
`Declaration` descendant is the method's. -/
theorem c10_first_declaration_witness :
    ("Declaration", "B") ∈ extract_segments c10wRoot
      ∧ ("Method " ++ attrGet c10wMethod "Name" "Unknown" ++ " Declaration", "B")
          ∈ extract_segments c10wRoot :=
  c10_first_declaration_emitted_twice c10wRoot c10wMethod c10wDecl "B" rfl
    (List.mem_singleton.mpr rfl) rfl rfl

end TwinCatPdf
